import Mathlib

/-!
Shallow embedding of `src/mocker.ts` (class `ApiMocker`) from the
`onamfc/api-mocker` repository, together with theorems settling the
frozen claims about its specification.

Modelling conventions:
* JavaScript records (`Record<string, string>`, plain objects used as
  maps) are association lists `List (String × V)` in property-insertion
  order; property assignment `obj[k] = v` is `recordSet` (replace in
  place, else append), `obj[k]` lookup is `recordGet` and key-membership
  `k in obj` is `recordHas`.
* JavaScript strings are manipulated through their character lists
  (`String.data`) so that every operation is a structurally recursive,
  kernel-computable function.
* `Array.prototype.sort` with a comparator is modelled by a stable
  insertion sort (`insertionSortB`) over the boolean relation
  "comparator ≤ 0"; ECMAScript guarantees sort stability, under which
  the two produce the same list for the consistent comparators used in
  the source.
* functions that can throw are given `Except ThrownError` result types;
  a thrown JavaScript error is modelled by its `name` and `message`.
-/

namespace ApiMocker

/-- recordSet models the JavaScript object assignment `obj[k] = v` on an
association list kept in property-insertion order: an existing binding of
the key is replaced in place, otherwise the pair is appended. -/
def recordSet {V : Type} (m : List (String × V)) (k : String) (v : V) :
    List (String × V) :=
  if m.any (fun p => p.1 = k) then
    m.map (fun p => if p.1 = k then (k, v) else p)
  else
    m ++ [(k, v)]

/-- recordGet models the JavaScript property read `obj[k]`, returning
`none` for `undefined`. -/
def recordGet {V : Type} (m : List (String × V)) (k : String) : Option V :=
  (m.find? (fun p => p.1 = k)).map (fun p => p.2)

/-- recordHas models the JavaScript `k in obj` test. -/
def recordHas {V : Type} (m : List (String × V)) (k : String) : Bool :=
  m.any (fun p => p.1 = k)

/-- lowerStr models `String.prototype.toLowerCase` (character-wise, which
is exact on the ASCII header names involved). -/
def lowerStr (s : String) : String :=
  ⟨s.data.map Char.toLower⟩

/-- splitSlash models `str.split('/')` on the character list of a path:
empty fields are kept, exactly as in JavaScript. -/
def splitSlash : List Char → List (List Char)
  | [] => [[]]
  | c :: rest =>
    if c = '/' then [] :: splitSlash rest
    else
      match splitSlash rest with
      | s :: ss => (c :: s) :: ss
      | [] => [[c]]

/-- normalizePath embeds `ApiMocker.normalizePath`: the empty (falsy)
path becomes `/`, otherwise a leading `/` is ensured. -/
def normalizePath (path : List Char) : List Char :=
  if path = [] then ['/']
  else if path.head? = some '/' then path
  else '/' :: path

/-- trimTrailingSlash embeds `ApiMocker.trimTrailingSlash`: one trailing
`/` is dropped (via `slice(0, -1)`) unless the string has length ≤ 1. -/
def trimTrailingSlash (path : List Char) : List Char :=
  if path.length > 1 ∧ path.getLast? = some '/' then path.dropLast
  else path

/-- JsValue models the JavaScript values that flow through the mocker:
`null`, `undefined`, booleans, (integer) numbers, strings, arrays and
plain objects (fields in insertion order). -/
inductive JsValue where
  | vNull
  | vUndef
  | vBool (b : Bool)
  | vNum (n : Int)
  | vStr (s : String)
  | vArr (elems : List JsValue)
  | vObj (fields : List (String × JsValue))

/-- lbraceC is the `{` character (written via its code point). -/
def lbraceC : Char := Char.ofNat 123

/-- rbraceC is the `}` character (written via its code point). -/
def rbraceC : Char := Char.ofNat 125

/-- skipWs drops leading JSON whitespace. -/
def skipWs : List Char → List Char
  | [] => []
  | c :: rest =>
    if c = ' ' ∨ c = '\t' ∨ c = '\n' ∨ c = '\r' then skipWs rest
    else c :: rest

/-- stripLit consumes an expected literal character sequence. -/
def stripLit : List Char → List Char → Option (List Char)
  | [], s => some s
  | c :: p, d :: s => if c = d then stripLit p s else none
  | _ :: _, [] => none

/-- takeDigits splits off a maximal run of leading decimal digits. -/
def takeDigits : List Char → (List Char × List Char)
  | [] => ([], [])
  | c :: rest =>
    if c.isDigit then
      let (ds, r) := takeDigits rest
      (c :: ds, r)
    else ([], c :: rest)

/-- digitsToNat folds a digit run into a natural number. -/
def digitsToNat (acc : Nat) : List Char → Nat
  | [] => acc
  | c :: rest => digitsToNat (acc * 10 + (c.toNat - 48)) rest

/-- parseStrBody parses the body of a JSON string literal after the
opening quote, decoding the single-character escapes, up to and including
the closing quote. Fuel-driven so that it is kernel-computable. -/
def parseStrBody : Nat → List Char → Option (List Char × List Char)
  | 0, _ => none
  | fuel + 1, input =>
    match input with
    | [] => none
    | c :: rest =>
      if c = '"' then some ([], rest)
      else if c = '\\' then
        match rest with
        | [] => none
        | e :: rest2 =>
          let dec : Option Char :=
            if e = '"' then some '"'
            else if e = '\\' then some '\\'
            else if e = '/' then some '/'
            else if e = 'n' then some '\n'
            else if e = 't' then some '\t'
            else if e = 'r' then some '\r'
            else if e = 'b' then some (Char.ofNat 8)
            else if e = 'f' then some (Char.ofNat 12)
            else none
          match dec with
          | none => none
          | some d =>
            (parseStrBody fuel rest2).map (fun p => (d :: p.1, p.2))
      else (parseStrBody fuel rest).map (fun p => (c :: p.1, p.2))

mutual

/-- parseVal is a recursive-descent parser for the integer-numbered
fragment of JSON (null, booleans, integers, strings, arrays, objects),
modelling the platform builtin `JSON.parse` used by
`ApiMocker.parseRequestBody`; fractional and exponent number forms are
outside the model. -/
def parseVal : Nat → List Char → Option (JsValue × List Char)
  | 0, _ => none
  | fuel + 1, input =>
    match skipWs input with
    | [] => none
    | c :: rest =>
      if c = 'n' then
        (stripLit ['u', 'l', 'l'] rest).map (fun r => (JsValue.vNull, r))
      else if c = 't' then
        (stripLit ['r', 'u', 'e'] rest).map (fun r => (JsValue.vBool true, r))
      else if c = 'f' then
        (stripLit ['a', 'l', 's', 'e'] rest).map (fun r => (JsValue.vBool false, r))
      else if c = '"' then
        (parseStrBody (fuel + 1) rest).map (fun p => (JsValue.vStr ⟨p.1⟩, p.2))
      else if c = '-' then
        match takeDigits rest with
        | ([], _) => none
        | (ds, r) => some (JsValue.vNum (-(digitsToNat 0 ds : Int)), r)
      else if c.isDigit then
        match takeDigits (c :: rest) with
        | (ds, r) => some (JsValue.vNum (digitsToNat 0 ds : Int), r)
      else if c = '[' then
        match skipWs rest with
        | ']' :: r => some (JsValue.vArr [], r)
        | r =>
          match parseArrItems fuel r with
          | some (items, r2) => some (JsValue.vArr items, r2)
          | none => none
      else if c = lbraceC then
        match skipWs rest with
        | d :: r =>
          if d = rbraceC then some (JsValue.vObj [], r)
          else
            match parseObjItems fuel (d :: r) with
            | some (fields, r2) => some (JsValue.vObj fields, r2)
            | none => none
        | [] => none
      else none

/-- parseArrItems parses one or more comma-separated JSON array items up
to and including the closing bracket. -/
def parseArrItems : Nat → List Char → Option (List JsValue × List Char)
  | 0, _ => none
  | fuel + 1, input =>
    match parseVal fuel input with
    | none => none
    | some (v, rest) =>
      match skipWs rest with
      | ',' :: r =>
        match parseArrItems fuel r with
        | some (items, r2) => some (v :: items, r2)
        | none => none
      | ']' :: r => some ([v], r)
      | _ => none

/-- parseObjItems parses one or more comma-separated JSON object members
up to and including the closing brace. -/
def parseObjItems : Nat → List Char → Option (List (String × JsValue) × List Char)
  | 0, _ => none
  | fuel + 1, input =>
    match skipWs input with
    | '"' :: rest =>
      match parseStrBody (fuel + 1) rest with
      | none => none
      | some (key, r) =>
        match skipWs r with
        | ':' :: r2 =>
          match parseVal fuel r2 with
          | none => none
          | some (v, r3) =>
            match skipWs r3 with
            | ',' :: r4 =>
              match parseObjItems fuel r4 with
              | some (fields, r5) => some ((⟨key⟩, v) :: fields, r5)
              | none => none
            | d :: r4 =>
              if d = rbraceC then some ([(⟨key⟩, v)], r4) else none
            | [] => none
        | _ => none
    | _ => none

end

/-- jsonParse models `JSON.parse` (on the modelled JSON fragment): parse
one value and require only whitespace to remain. -/
def jsonParse (s : String) : Option JsValue :=
  match parseVal (2 * s.data.length + 2) s.data with
  | some (v, rest) => if skipWs rest = [] then some v else none
  | none => none

/-- BodyVal is the value a parsed request body takes inside a Request
Context: absent (`undefined`), a decoded JSON value, or the raw text. -/
inductive BodyVal where
  | undef
  | json (v : JsValue)
  | text (s : String)

/-- parseRequestBody embeds `ApiMocker.parseRequestBody`: the request
body text is `none` when cloning or draining the body threw (outer
`catch` → `undefined`); an empty text yields `undefined`; otherwise
`JSON.parse` is attempted and on failure the raw text is delivered. -/
def parseRequestBody (bodyText : Option String) : BodyVal :=
  match bodyText with
  | none => BodyVal.undef
  | some t =>
    if t = "" then BodyVal.undef
    else
      match jsonParse t with
      | some v => BodyVal.json v
      | none => BodyVal.text t

/-- ThrownError models a thrown JavaScript error by its `name` and
`message` (a `TypeError`, `DOMException` or plain `Error` is identified
by its `name` property, which is what callers can branch on). -/
structure ThrownError where
  name : String
  message : String
deriving DecidableEq

/-- Request models the data of an intercepted request that the mocker
inspects: the URL's pathname, its search parameters in order of
appearance (repeats kept), the request headers, and the body text
(`none` when cloning or draining the body would throw). -/
structure Request where
  pathname : String
  query : List (String × String)
  headers : List (String × String)
  bodyText : Option String

/-- RequestContext embeds the `RequestContext` interface of `types.ts`:
the per-call bundle passed to a dynamic handler. -/
structure RequestContext where
  params : List (String × String)
  body : BodyVal
  queryParams : List (String × String)
  headers : List (String × String)
  request : Request
  state : List (String × JsValue)

/-- ResolvedValue is a resolved response payload: either a fully-formed
transport `Response` object (returned unchanged by the builder) or a
plain JavaScript value. -/
inductive ResolvedValue where
  | native
  | plain (v : JsValue)

/-- ResponseSource embeds the response source of a definition: a static
literal value, a zero-argument function (which may throw), or a dynamic
handler consuming the Request Context (which may throw). -/
inductive ResponseSource where
  | value (v : ResolvedValue)
  | thunk (f : Unit → Except ThrownError ResolvedValue)
  | handler (h : RequestContext → Except ThrownError ResolvedValue)

/-- MockConfig embeds the configuration after `createConfig` has filled
the defaults (so every field is present). `basePath` holds the path
portion of the configured base URL as computed by `getBasePath` (empty
when no base URL is set or its path is `/`). -/
structure MockConfig where
  basePath : String
  globalDelay : Nat
  globalHeaders : List (String × String)
  logRequests : Bool
  defaultPriority : Int

/-- Endpoint embeds `MockEndpoint`/`DynamicEndpoint` (the two variants
are distinguished by the `response` source). `matchPred` is the optional
custom predicate over the raw request, modelled as a function that can
also throw. `networkError` is a `String` so that the `default` branch of
`simulateNetworkError` (reachable past the type annotations) stays in
the model. -/
structure Endpoint where
  path : String
  method : String
  response : ResponseSource
  status : Option Int
  delay : Option Nat
  headers : Option (List (String × String))
  priority : Option Int
  queryParams : Option (List (String × String))
  requestHeaders : Option (List (String × String))
  matchPred : Option (Request → Except ThrownError Bool)
  networkError : Option String

/-- Registry models the `Map<string, (MockEndpoint | DynamicEndpoint)[]>`
as an association list in key-insertion order. -/
abbrev Registry : Type := List (String × List Endpoint)

/-- getPathWithoutBase embeds `ApiMocker.getPathWithoutBase`: normalize
the request pathname and strip the configured base path when it is a
prefix. -/
def getPathWithoutBase (cfg : MockConfig) (pathname : String) : List Char :=
  let requestPath := normalizePath pathname.data
  let basePath := cfg.basePath.data
  if basePath ≠ [] ∧ basePath.isPrefixOf requestPath then
    normalizePath (requestPath.drop basePath.length)
  else requestPath

/-- isNameChar recognises the characters that survive both the
regex-escaping pass and the `:name` token class in `matchesPath` (the
escape pass puts a backslash before `-`, so `-` cannot continue a token
even though the token class lists it). -/
def isNameChar (c : Char) : Bool :=
  c.isAlpha || c.isDigit || c = '_'

/-- segIsParam recognises a pattern segment that is wholly a `:name`
parameter token. -/
def segIsParam (seg : List Char) : Bool :=
  match seg with
  | ':' :: rest => !rest.isEmpty && rest.all isNameChar
  | _ => false

/-- segMatches states when one pattern segment accepts one path segment:
a parameter token accepts any non-empty segment (the token compiles to
`([^/]+)` between literal slashes), anything else must match literally
(escaped characters match themselves). -/
def segMatches (pseg sseg : List Char) : Bool :=
  if segIsParam pseg then !sseg.isEmpty else pseg == sseg

/-- matchesPath embeds `ApiMocker.matchesPath` at segment granularity:
both the pattern and the base-stripped request path are normalized and
trimmed, and the anchored regex `^...$` built from the escaped pattern
(with each whole-segment `:name` token replaced by `([^/]+)`) accepts
the path exactly when the slash-split segment lists have equal length
and correspond pointwise. This segment model is exact for patterns in
which every `:` occurs only as the head of a whole-segment parameter
token, which covers all patterns of this development. -/
def matchesPath (cfg : MockConfig) (pattern : String) (r : Request) : Bool :=
  let patternPath := trimTrailingSlash (normalizePath pattern.data)
  let requestPath := trimTrailingSlash (getPathWithoutBase cfg r.pathname)
  let psegs := splitSlash patternPath
  let rsegs := splitSlash requestPath
  psegs.length == rsegs.length && (List.zip psegs rsegs).all (fun pr => segMatches pr.1 pr.2)

/-- searchParamsGet models `URLSearchParams.get`: the value of the FIRST
occurrence of the key, or `none` (`null`) when absent. -/
def searchParamsGet (query : List (String × String)) (k : String) : Option String :=
  (query.find? (fun p => p.1 = k)).map (fun p => p.2)

/-- matchesQueryParams embeds `ApiMocker.matchesQueryParams`: every
constraint key must yield, via `searchParams.get`, exactly the expected
string (a `null` for an absent key never equals the expected string). -/
def matchesQueryParams (expected : List (String × String))
    (query : List (String × String)) : Bool :=
  expected.all (fun kv => searchParamsGet query kv.1 == some kv.2)

/-- extractHeaders embeds `ApiMocker.extractHeaders`: request headers
folded into a record with lowercased keys. -/
def extractHeaders (r : Request) : List (String × String) :=
  r.headers.foldl (fun m kv => recordSet m (lowerStr kv.1) kv.2) []

/-- matchesHeaders embeds `ApiMocker.matchesHeaders`: every constraint
key, lowercased, must be present in the extracted request headers with
exactly the expected value. -/
def matchesHeaders (expected : List (String × String)) (r : Request) : Bool :=
  let requestHeaders := extractHeaders r
  expected.all (fun kv => recordGet requestHeaders (lowerStr kv.1) == some kv.2)

/-- calculateSpecificity embeds `ApiMocker.calculateSpecificity`: over
the non-empty slash-split segments of the normalized, trimmed path, add
1 for a segment starting with `:` and 10 otherwise. -/
def calculateSpecificity (path : String) : Nat :=
  let segments :=
    (splitSlash (trimTrailingSlash (normalizePath path.data))).filter
      (fun s => !s.isEmpty)
  segments.foldl (fun acc seg => acc + (if seg.head? = some ':' then 1 else 10)) 0

/-- matchesEndpoint embeds `ApiMocker.matchesEndpoint`: the five checks
in source order with early-return short-circuiting; a throw from the
custom predicate propagates as an `Except.error`. -/
def matchesEndpoint (cfg : MockConfig) (e : Endpoint) (m : String) (r : Request) :
    Except ThrownError Bool :=
  if e.method ≠ m then Except.ok false
  else
    (match e.matchPred with
     | some f => f r
     | none => Except.ok true).bind fun predOk =>
      if predOk = false then Except.ok false
      else if matchesPath cfg e.path r = false then Except.ok false
      else if (match e.queryParams with
               | some qp => !matchesQueryParams qp r.query
               | none => false) then Except.ok false
      else if (match e.requestHeaders with
               | some hs => !matchesHeaders hs r
               | none => false) then Except.ok false
      else Except.ok true

/-- collectList gathers the matching endpoints of one registry list, in
order, pairing each with its path specificity; an exception during
matching aborts the whole collection. -/
def collectList (cfg : MockConfig) (m : String) (r : Request) :
    List Endpoint → Except ThrownError (List (Endpoint × Nat))
  | [] => Except.ok []
  | e :: rest =>
    (matchesEndpoint cfg e m r).bind fun ok =>
      (collectList cfg m r rest).map fun tail =>
        if ok then (e, calculateSpecificity e.path) :: tail else tail

/-- collectCandidates gathers candidates across the whole registry in
map-iteration order (key-insertion order), as the candidate loop of
`findMatchingEndpoint` does. -/
def collectCandidates (cfg : MockConfig) (m : String) (r : Request) :
    Registry → Except ThrownError (List (Endpoint × Nat))
  | [] => Except.ok []
  | (_, eps) :: rest =>
    (collectList cfg m r eps).bind fun c1 =>
      (collectCandidates cfg m r rest).map fun c2 => c1 ++ c2

/-- orderedInsertB inserts into a sorted list, keeping the new element
before the first element it may precede (the stable position). -/
def orderedInsertB {α : Type} (le : α → α → Bool) (a : α) : List α → List α
  | [] => [a]
  | b :: l => if le a b then a :: b :: l else b :: orderedInsertB le a l

/-- insertionSortB is a stable insertion sort over a boolean relation;
it models `Array.prototype.sort` (stable per ECMAScript) under the
relation "comparator result ≤ 0". -/
def insertionSortB {α : Type} (le : α → α → Bool) : List α → List α
  | [] => []
  | a :: l => orderedInsertB le a (insertionSortB le l)

/-- candLe is the relation "the comparator of `findMatchingEndpoint`
returns ≤ 0": higher priority first, then higher specificity. -/
def candLe (a b : Endpoint × Nat) : Bool :=
  let pa := a.1.priority.getD 0
  let pb := b.1.priority.getD 0
  if pa = pb then decide (b.2 ≤ a.2) else decide (pb < pa)

/-- findMatchingEndpoint embeds `ApiMocker.findMatchingEndpoint`:
collect the matching candidates across the registry, stably sort them by
priority descending then specificity descending, and return the head. -/
def findMatchingEndpoint (cfg : MockConfig) (reg : Registry) (m : String)
    (r : Request) : Except ThrownError (Option Endpoint) :=
  (collectCandidates cfg m r reg).map fun cands =>
    match insertionSortB candLe cands with
    | [] => none
    | best :: _ => some best.1

/-- createEndpointKey embeds `ApiMocker.createEndpointKey`. -/
def createEndpointKey (method path : String) : String :=
  method ++ ":" ++ path

/-- sortEndpointsByPriority embeds `ApiMocker.sortEndpointsByPriority`:
a stable sort of one key's list by priority descending. -/
def sortEndpointsByPriority (eps : List Endpoint) : List Endpoint :=
  insertionSortB (fun a b => decide ((b.priority.getD 0) ≤ (a.priority.getD 0))) eps

/-- mockAdd embeds `ApiMocker.mock` / `ApiMocker.mockDynamic` (their
registry bookkeeping is identical): fill the priority default from the
configuration, append to the key's list (creating it at the end of the
map when new) and re-sort that list stably by priority. -/
def mockAdd (cfg : MockConfig) (reg : Registry) (e : Endpoint) : Registry :=
  let key := createEndpointKey e.method e.path
  let e2 := { e with priority := some (e.priority.getD cfg.defaultPriority) }
  if reg.any (fun p => p.1 = key) then
    reg.map (fun p =>
      if p.1 = key then (key, sortEndpointsByPriority (p.2 ++ [e2])) else p)
  else
    reg ++ [(key, sortEndpointsByPriority [e2])]

/-- extractParamsGo walks pattern segments and path segments positionally
(the `forEach` with index of `extractParams`): a `:`-headed pattern
segment binds its name to the path segment at the same index when that
segment exists and is truthy; indices past the end of the path list are
`undefined` and are skipped. -/
def extractParamsGo :
    List (List Char) → List (List Char) → List (String × String) →
      List (String × String)
  | [], _, m => m
  | _ :: _, [], m => m
  | p :: ps, u :: us, m =>
    let m2 :=
      match p with
      | ':' :: name => if u ≠ [] then recordSet m ⟨name⟩ ⟨u⟩ else m
      | _ => m
    extractParamsGo ps us m2

/-- extractParams embeds `ApiMocker.extractParams`: normalize and trim
both pattern and base-stripped path, split on `/` keeping only non-empty
parts, and bind `:name` parts positionally. -/
def extractParams (cfg : MockConfig) (pattern : String) (r : Request) :
    List (String × String) :=
  let normalizedPattern := trimTrailingSlash (normalizePath pattern.data)
  let requestPath := trimTrailingSlash (getPathWithoutBase cfg r.pathname)
  let patternParts := (splitSlash normalizedPattern).filter (fun s => !s.isEmpty)
  let urlParts := (splitSlash requestPath).filter (fun s => !s.isEmpty)
  extractParamsGo patternParts urlParts []

/-- extractQueryParams embeds `ApiMocker.extractQueryParams`: fold every
search-parameter occurrence, in order of appearance, into a record by
assignment — so a repeated key ends up holding its LAST occurrence. -/
def extractQueryParams (query : List (String × String)) : List (String × String) :=
  query.foldl (fun m kv => recordSet m kv.1 kv.2) []

/-- buildRequestContext embeds `ApiMocker.buildRequestContext`. -/
def buildRequestContext (cfg : MockConfig) (state : List (String × JsValue))
    (pattern : String) (r : Request) : RequestContext :=
  { params := extractParams cfg pattern r
    body := parseRequestBody r.bodyText
    queryParams := extractQueryParams r.query
    headers := extractHeaders r
    request := r
    state := state }

/-- resolveEndpointResponse embeds `ApiMocker.resolveEndpointResponse`:
a dynamic definition invokes its handler with the built context, a
function-valued static response is invoked with no arguments, and a
literal value is used directly. -/
def resolveEndpointResponse (cfg : MockConfig) (state : List (String × JsValue))
    (e : Endpoint) (r : Request) : Except ThrownError ResolvedValue :=
  match e.response with
  | ResponseSource.handler h => h (buildRequestContext cfg state e.path r)
  | ResponseSource.thunk f => f ()
  | ResponseSource.value v => Except.ok v

/-- isMockResponse embeds `ApiMocker.isMockResponse`: a non-null object
with a `data` key and at least one of a `status` or `headers` key.
(`typeof v === 'object'` also holds of arrays, but an array has no
`data` property, and `null` is excluded explicitly.) -/
def isMockResponse (v : JsValue) : Bool :=
  match v with
  | JsValue.vObj fields =>
    recordHas fields "data" && (recordHas fields "status" || recordHas fields "headers")
  | _ => false

/-- mergeHeaders embeds `ApiMocker.mergeHeaders`: start from a copy of
the configuration's global headers and assign each group's entries
key-by-key in order, skipping absent groups, so later entries win at the
top level only. -/
def mergeHeaders (cfg : MockConfig)
    (headerGroups : List (Option (List (String × String)))) :
    List (String × String) :=
  headerGroups.foldl
    (fun acc g =>
      match g with
      | none => acc
      | some fields => fields.foldl (fun m kv => recordSet m kv.1 kv.2) acc)
    cfg.globalHeaders

/-- escapeJsonChar escapes one character for a JSON string literal. -/
def escapeJsonChar (c : Char) : List Char :=
  if c = '"' then ['\\', '"']
  else if c = '\\' then ['\\', '\\']
  else if c = '\n' then ['\\', 'n']
  else if c = '\t' then ['\\', 't']
  else if c = '\r' then ['\\', 'r']
  else [c]

/-- stringifyStr renders a JSON string literal. -/
def stringifyStr (s : String) : String :=
  ⟨'"' :: s.data.foldr (fun c acc => escapeJsonChar c ++ acc) ['"']⟩

/-- joinComma joins rendered items with commas. -/
def joinComma : List String → String
  | [] => ""
  | [s] => s
  | s :: rest => s ++ "," ++ joinComma rest

mutual

/-- stringifyVal models `JSON.stringify` on the modelled value fragment
(fuel-driven; `undefined` has no JSON rendering, as in JavaScript where
`JSON.stringify(undefined)` is `undefined`). -/
def stringifyVal : Nat → JsValue → Option String
  | 0, _ => none
  | fuel + 1, v =>
    match v with
    | JsValue.vNull => some "null"
    | JsValue.vUndef => none
    | JsValue.vBool true => some "true"
    | JsValue.vBool false => some "false"
    | JsValue.vNum n => some (toString n)
    | JsValue.vStr s => some (stringifyStr s)
    | JsValue.vArr elems =>
      (stringifyArr fuel elems).map (fun parts => "[" ++ joinComma parts ++ "]")
    | JsValue.vObj fields =>
      (stringifyObj fuel fields).map
        (fun parts => String.mk [lbraceC] ++ joinComma parts ++ String.mk [rbraceC])

/-- stringifyArr renders array elements (an `undefined` element renders
as `null`, as `JSON.stringify` does). -/
def stringifyArr : Nat → List JsValue → Option (List String)
  | 0, _ => none
  | fuel + 1, l =>
    match l with
    | [] => some []
    | v :: rest =>
      match stringifyVal fuel v, stringifyArr fuel rest with
      | some s, some ss => some (s :: ss)
      | none, some ss => some ("null" :: ss)
      | _, none => none

/-- stringifyObj renders object members (a member whose value is
`undefined` is dropped, as `JSON.stringify` does). -/
def stringifyObj : Nat → List (String × JsValue) → Option (List String)
  | 0, _ => none
  | fuel + 1, l =>
    match l with
    | [] => some []
    | (k, v) :: rest =>
      match stringifyVal fuel v, stringifyObj fuel rest with
      | some s, some ss => some ((stringifyStr k ++ ":" ++ s) :: ss)
      | none, some ss => some ss
      | _, none => none

end

mutual

/-- jsDepth measures value nesting, to provide stringification fuel. -/
def jsDepth : JsValue → Nat
  | JsValue.vArr elems => jsDepthList elems + 1
  | JsValue.vObj fields => jsDepthFields fields + 1
  | _ => 1

/-- jsDepthList measures the maximal nesting of array elements. -/
def jsDepthList : List JsValue → Nat
  | [] => 0
  | v :: rest => max (jsDepth v) (jsDepthList rest)

/-- jsDepthFields measures the maximal nesting of object members. -/
def jsDepthFields : List (String × JsValue) → Nat
  | [] => 0
  | (_, v) :: rest => max (jsDepth v) (jsDepthFields rest)

end

/-- jsonStringify runs `stringifyVal` with enough fuel for the value. -/
def jsonStringify (v : JsValue) : Option String :=
  stringifyVal (2 * jsDepth v + 2) v

/-- serializeBody embeds `ApiMocker.serializeBody` on the modelled value
fragment: `undefined`/`null` produce a null body, a string passes
through unchanged (`isBodyInit`), and everything else is
JSON-serialized. (The other pass-through transport body types — blobs,
form data, URL-encoded params, buffers, streams — have no constructor in
`JsValue` and are outside the model.) -/
def serializeBody (v : JsValue) : Option String :=
  match v with
  | JsValue.vUndef => none
  | JsValue.vNull => none
  | JsValue.vStr s => some s
  | other => (jsonStringify other).getD ""

/-- jsNullish models the `??` test: `null` and `undefined` (and an
absent property) are nullish. -/
def jsNullish (v : Option JsValue) : Option JsValue :=
  match v with
  | some JsValue.vNull => none
  | some JsValue.vUndef => none
  | none => none
  | some x => some x

/-- descStatus reads a response descriptor's `status` field (typed
`number` in `MockResponse`, hence a `vNum` when present and
non-nullish). -/
def descStatus (fields : List (String × JsValue)) : Option Int :=
  match jsNullish (recordGet fields "status") with
  | some (JsValue.vNum n) => some n
  | _ => none

/-- strFields projects a `Record<string, string>` object (typed headers)
to its string-valued members. -/
def strFields (fields : List (String × JsValue)) : List (String × String) :=
  fields.foldr
    (fun kv acc =>
      match kv.2 with
      | JsValue.vStr s => (kv.1, s) :: acc
      | _ => acc)
    []

/-- descHeaders reads a response descriptor's `headers` field (typed
`Record<string, string>`; a falsy/absent `headers` group is skipped by
`mergeHeaders`). -/
def descHeaders (fields : List (String × JsValue)) :
    Option (List (String × String)) :=
  match recordGet fields "headers" with
  | some (JsValue.vObj hs) => some (strFields hs)
  | _ => none

/-- NormalizedResponse is the `{ body, status, headers }` triple that
`normalizeResponse` produces for the `Response` constructor. -/
structure NormalizedResponse where
  body : Option String
  status : Int
  headers : List (String × String)

/-- normalizeResponse embeds `ApiMocker.normalizeResponse`: a value
recognised by `isMockResponse` contributes its `data`, `status` and
`headers` fields; any other value is itself the body, with the
definition's status (default 200) and no descriptor header group. -/
def normalizeResponse (cfg : MockConfig) (e : Endpoint) (v : JsValue) :
    NormalizedResponse :=
  if isMockResponse v then
    match v with
    | JsValue.vObj fields =>
      { body := serializeBody ((recordGet fields "data").getD JsValue.vUndef)
        status := (descStatus fields).getD (e.status.getD 200)
        headers := mergeHeaders cfg [e.headers, descHeaders fields] }
    | _ => { body := none, status := 0, headers := [] }
  else
    { body := serializeBody v
      status := e.status.getD 200
      headers := mergeHeaders cfg [e.headers] }

/-- simulateNetworkError embeds `ApiMocker.simulateNetworkError`: the
error thrown for each network-error label (the `abort` label throws a
`DOMException` — or, absent that global, a plain `Error` — whose name is
`AbortError` in either case). -/
def simulateNetworkError (errorType : String) : ThrownError :=
  if errorType = "timeout" then
    { name := "TypeError", message := "Network request failed: timeout" }
  else if errorType = "connection_refused" then
    { name := "TypeError", message := "Network request failed: connection refused" }
  else if errorType = "abort" then
    { name := "AbortError", message := "The operation was aborted" }
  else
    { name := "TypeError", message := "Network request failed" }

/-- BuiltResponse is the outcome of `createMockResponse` when it does
not throw: the resolved native `Response` passed through unchanged, or a
response built from a normalized `{ body, status, headers }` triple. -/
inductive BuiltResponse where
  | native
  | built (r : NormalizedResponse)

/-- createMockResponse embeds `ApiMocker.createMockResponse` (minus the
timing of the delay, which has no observable value-level effect): after
the delay, a declared network-error label makes the call throw before
any payload resolution; otherwise the response source is resolved (its
exceptions propagate), a native `Response` value is returned unchanged,
and anything else is normalized. -/
def createMockResponse (cfg : MockConfig) (state : List (String × JsValue))
    (e : Endpoint) (r : Request) : Except ThrownError BuiltResponse :=
  match e.networkError with
  | some lbl => Except.error (simulateNetworkError lbl)
  | none =>
    (resolveEndpointResponse cfg state e r).map fun rv =>
      match rv with
      | ResolvedValue.native => BuiltResponse.native
      | ResolvedValue.plain v => BuiltResponse.built (normalizeResponse cfg e v)

/-- MockerState gathers the mutable instance state of `ApiMocker`. -/
structure MockerState where
  endpoints : Registry
  config : MockConfig
  isEnabled : Bool
  state : List (String × JsValue)

/-- clear embeds `ApiMocker.clear`: both the endpoint map and the shared
state are emptied by the same call. -/
def clear (s : MockerState) : MockerState :=
  { s with endpoints := [], state := [] }

/-- getState embeds `ApiMocker.getState` (a shallow copy, hence the same
association list). -/
def getState (s : MockerState) : List (String × JsValue) :=
  s.state

/-- FetchOutcome describes what the installed fetch interceptor does
with one request: pass it to the real transport, answer it from a mock,
or fail the call with a thrown error. -/
inductive FetchOutcome where
  | passthrough
  | mocked (e : Endpoint)
  | errored (err : ThrownError)

/-- interceptDecision embeds the dispatch of the interceptor installed
by `setupFetchInterceptor`: a disabled mocker always passes through;
otherwise the matching endpoint (if any) answers the call, a matching
exception fails the call, and no match falls through to the saved real
transport. -/
def interceptDecision (s : MockerState) (m : String) (r : Request) : FetchOutcome :=
  if s.isEnabled = false then FetchOutcome.passthrough
  else
    match findMatchingEndpoint s.config s.endpoints m r with
    | Except.error err => FetchOutcome.errored err
    | Except.ok none => FetchOutcome.passthrough
    | Except.ok (some e) => FetchOutcome.mocked e

/-- selectWinner picks the first element of a list that no later element
strictly beats: the scan keeps the current best and replaces it only on a
strict improvement, which is exactly the element a stable
sort-then-take-head computes. -/
def selectWinner {α : Type} (lt : α → α → Bool) : List α → Option α
  | [] => none
  | c :: cs => some (cs.foldl (fun best x => if lt x best then x else best) c)

/-- candBetter is the strict version of `candLe`: strictly higher
priority, or equal priority and strictly higher specificity. -/
def candBetter (a b : Endpoint × Nat) : Bool :=
  let pa := a.1.priority.getD 0
  let pb := b.1.priority.getD 0
  if pa = pb then decide (b.2 < a.2) else decide (pb < pa)

theorem candBetter_eq_not_candLe (a b : Endpoint × Nat) :
    candBetter a b = !(candLe b a) := by
  simp only [candBetter, candLe]
  by_cases h : a.1.priority.getD 0 = b.1.priority.getD 0
  · rw [if_pos h, if_pos h.symm]
    by_cases hs : a.2 ≤ b.2
    · have h1 : ¬ (b.2 < a.2) := by omega
      simp [hs, h1]
    · have h1 : b.2 < a.2 := by omega
      simp [hs, h1]
  · rw [if_neg h, if_neg (fun hh => h hh.symm)]
    by_cases hl : b.1.priority.getD 0 < a.1.priority.getD 0
    · have h1 : ¬ (a.1.priority.getD 0 < b.1.priority.getD 0) := by omega
      simp [hl, h1]
    · have h1 : a.1.priority.getD 0 < b.1.priority.getD 0 := by omega
      simp [hl, h1]

theorem candLe_total (a b : Endpoint × Nat) :
    candLe a b = false → candLe b a = true := by
  simp only [candLe]
  split_ifs with h1 h2 h2 <;>
    simp only [decide_eq_false_iff_not, decide_eq_true_eq] <;> omega

theorem candLe_trans (a b c : Endpoint × Nat) :
    candLe a b = true → candLe b c = true → candLe a c = true := by
  simp only [candLe]
  split_ifs with h1 h2 h3 <;>
    simp only [decide_eq_true_eq] <;> intro hx hy <;> omega

theorem orderedInsertB_head {α : Type} (le : α → α → Bool) (a : α) (s : List α) :
    (orderedInsertB le a s).head? =
      some (match s.head? with
            | none => a
            | some b => if le a b then a else b) := by
  cases s with
  | nil => rfl
  | cons b t =>
    simp only [orderedInsertB, List.head?_cons]
    by_cases h : le a b = true
    · rw [if_pos h, if_pos h, List.head?_cons]
    · rw [if_neg h, if_neg h, List.head?_cons]

/-- insertionSortB_head_selectWinner characterises the head of a stable
sort under a total transitive boolean preorder as the first element of
the input list that no other element strictly precedes — the element
`selectWinner` computes by a left scan that replaces the current best
only on a strict improvement. -/
theorem insertionSortB_head_selectWinner {α : Type} (le : α → α → Bool)
    (htot : ∀ a b, le a b = false → le b a = true)
    (htrans : ∀ a b c, le a b = true → le b c = true → le a c = true) :
    ∀ l : List α,
      (insertionSortB le l).head? = selectWinner (fun a b => !(le b a)) l := by
  have key : ∀ (l : List α) (c : α),
      l.foldl (fun best x => if !(le best x) then x else best) c =
        (match (insertionSortB le l).head? with
         | none => c
         | some w => if le c w then c else w) := by
    intro l
    induction l with
    | nil => intro c; rfl
    | cons b l' ih =>
      intro c
      have hsort : (insertionSortB le (b :: l')).head? =
          some (match (insertionSortB le l').head? with
                | none => b
                | some w => if le b w then b else w) := by
        simp only [insertionSortB]
        exact orderedInsertB_head le b (insertionSortB le l')
      rw [List.foldl_cons, ih (if !(le c b) then b else c), hsort]
      cases hl : (insertionSortB le l').head? with
      | none =>
        by_cases hcb : le c b = true
        · simp [hcb]
        · simp [hcb]
      | some w =>
        by_cases hcb : le c b = true
        · simp only [hcb, Bool.not_true, Bool.false_eq_true, if_neg (by simp : ¬ False)]
          by_cases hbw : le b w = true
          · have hcw : le c w = true := htrans c b w hcb hbw
            simp [hbw, hcw, hcb]
          · simp only [hbw, Bool.false_eq_true, if_neg (by simp : ¬ False)]
        · have hcb2 : le c b = false := by
            cases hval : le c b
            · rfl
            · exact absurd hval hcb
          simp only [hcb2, Bool.not_false, if_pos trivial]
          by_cases hbw : le b w = true
          · simp [hbw, hcb2]
          · have hcw : le c w = false := by
              cases hval : le c w
              · rfl
              · exfalso
                have hbc : le b c = true := htot c b hcb2
                have hbw2 : le b w = true := htrans b c w hbc hval
                exact absurd hbw2 hbw
            simp [hbw, hcw]
  intro l
  cases l with
  | nil => rfl
  | cons c cs =>
    simp only [selectWinner]
    have h := key cs c
    rw [h]
    have hsort := orderedInsertB_head le c (insertionSortB le cs)
    simp only [insertionSortB]
    rw [hsort]

theorem find?_replace_self {V : Type} (k : String) (v : V) :
    ∀ m : List (String × V), m.any (fun p => p.1 = k) = true →
      (m.map (fun p => if p.1 = k then (k, v) else p)).find? (fun p => p.1 = k) =
        some (k, v) := by
  intro m
  induction m with
  | nil => intro h; simp at h
  | cons p rest ih =>
    intro h
    by_cases hp : p.1 = k
    · simp only [List.map_cons, if_pos hp]
      exact List.find?_cons_of_pos _ (by simp)
    · simp only [List.map_cons, if_neg hp]
      rw [List.find?_cons_of_neg _ (by simpa using hp)]
      apply ih
      simp only [List.any_cons, Bool.or_eq_true, decide_eq_true_eq] at h
      rcases h with h | h
      · exact absurd h hp
      · exact h

theorem find?_append_self {V : Type} (k : String) (v : V)
    (m : List (String × V)) (h : m.any (fun p => p.1 = k) = false) :
    (m ++ [(k, v)]).find? (fun p => p.1 = k) = some (k, v) := by
  rw [List.find?_append]
  have h1 : m.find? (fun p => p.1 = k) = none := by
    rw [List.find?_eq_none]
    intro x hx
    simp only [decide_eq_true_eq]
    intro hk
    have h2 := List.any_of_mem hx (p := fun p => decide (p.1 = k)) (by simp [hk])
    rw [h] at h2
    cases h2
  rw [h1]
  simp [List.find?]

theorem find?_replace_other {V : Type} (k k2 : String) (v : V) (hne : k2 ≠ k) :
    ∀ m : List (String × V),
      (m.map (fun p => if p.1 = k then (k, v) else p)).find? (fun p => p.1 = k2) =
        m.find? (fun p => p.1 = k2) := by
  intro m
  induction m with
  | nil => rfl
  | cons p rest ih =>
    by_cases hp : p.1 = k
    · simp only [List.map_cons, if_pos hp]
      rw [List.find?_cons_of_neg _
            (by simp only [decide_eq_true_eq]; exact fun hh => hne hh.symm),
          List.find?_cons_of_neg _
            (by simp only [decide_eq_true_eq]; rw [hp]; exact fun hh => hne hh.symm)]
      exact ih
    · simp only [List.map_cons, if_neg hp]
      by_cases hq : p.1 = k2
      · rw [List.find?_cons_of_pos _ (by simpa using hq),
            List.find?_cons_of_pos _ (by simpa using hq)]
      · rw [List.find?_cons_of_neg _ (by simpa using hq),
            List.find?_cons_of_neg _ (by simpa using hq)]
        exact ih

theorem find?_append_other {V : Type} (k k2 : String) (v : V) (hne : k2 ≠ k)
    (m : List (String × V)) :
    (m ++ [(k, v)]).find? (fun p => p.1 = k2) = m.find? (fun p => p.1 = k2) := by
  rw [List.find?_append]
  have hkk : ¬ (k = k2) := fun hh => hne hh.symm
  have h1 : List.find? (fun p => p.1 = k2) [(k, v)] = none := by
    simp [List.find?, hkk]
  rw [h1]
  cases m.find? (fun p => p.1 = k2) <;> rfl

/-- recordGet_recordSet_self states the lookup of a just-assigned key. -/
theorem recordGet_recordSet_self {V : Type} (m : List (String × V)) (k : String)
    (v : V) : recordGet (recordSet m k v) k = some v := by
  unfold recordGet recordSet
  by_cases h : m.any (fun p => p.1 = k) = true
  · rw [if_pos h, find?_replace_self k v m h]
    rfl
  · have h2 : m.any (fun p => p.1 = k) = false := by
      cases hb : m.any (fun p => p.1 = k)
      · rfl
      · exact absurd hb h
    rw [if_neg h, find?_append_self k v m h2]
    rfl

/-- recordGet_recordSet_other states that assigning one key leaves the
lookup of any other key unchanged. -/
theorem recordGet_recordSet_other {V : Type} (m : List (String × V))
    (k k2 : String) (v : V) (hne : k2 ≠ k) :
    recordGet (recordSet m k v) k2 = recordGet m k2 := by
  unfold recordGet recordSet
  by_cases h : m.any (fun p => p.1 = k) = true
  · rw [if_pos h, find?_replace_other k k2 v hne m]
  · rw [if_neg h, find?_append_other k k2 v hne m]

/-- recordGet_overlay characterises lookup after assigning a whole group
key-by-key onto an accumulator: the LAST binding of the key in the group
wins (lookup in the reversed group), and a key absent from the group
falls through to the accumulator. -/
theorem recordGet_overlay {V : Type} (fs : List (String × V)) :
    ∀ (acc : List (String × V)) (k : String),
      recordGet (fs.foldl (fun m kv => recordSet m kv.1 kv.2) acc) k =
        (recordGet fs.reverse k).or (recordGet acc k) := by
  induction fs with
  | nil =>
    intro acc k
    simp [recordGet, List.find?]
  | cons kv fs' ih =>
    intro acc k
    rw [List.foldl_cons, ih (recordSet acc kv.1 kv.2) k]
    simp only [List.reverse_cons, recordGet, List.find?_append]
    cases hfind : fs'.reverse.find? (fun p => p.1 = k) with
    | some p => simp [hfind]
    | none =>
      simp only [hfind, Option.map_none']
      by_cases hk : kv.1 = k
      · subst hk
        have h2 := recordGet_recordSet_self acc kv.1 kv.2
        unfold recordGet at h2
        simp [List.find?, h2]
      · have h2 := recordGet_recordSet_other acc kv.1 k kv.2 (fun hh => hk hh.symm)
        unfold recordGet at h2
        simp [List.find?, h2, hk]

theorem matchesEndpoint_method_ne (cfg : MockConfig) (e : Endpoint) (m : String)
    (r : Request) (hm : e.method ≠ m) :
    matchesEndpoint cfg e m r = Except.ok false := by
  unfold matchesEndpoint
  rw [if_pos hm]

theorem matchesEndpoint_pred_error (cfg : MockConfig) (e : Endpoint) (m : String)
    (r : Request) (f : Request → Except ThrownError Bool) (err : ThrownError)
    (hm : e.method = m) (hf : e.matchPred = some f)
    (herr : f r = Except.error err) :
    matchesEndpoint cfg e m r = Except.error err := by
  unfold matchesEndpoint
  rw [if_neg (not_not_intro hm)]
  simp only [hf]
  rw [herr]
  rfl

/-- matchesEndpoint_ok_true_iff restates the matcher as the conjunction
of its five checks: the embedded conditional chain returns `ok true`
exactly when method, predicate, path, query constraints and header
constraints all pass. -/
theorem matchesEndpoint_ok_true_iff (cfg : MockConfig) (e : Endpoint) (m : String)
    (r : Request) :
    matchesEndpoint cfg e m r = Except.ok true ↔
      (e.method = m ∧
       (∀ f, e.matchPred = some f → f r = Except.ok true) ∧
       matchesPath cfg e.path r = true ∧
       (∀ qp, e.queryParams = some qp → matchesQueryParams qp r.query = true) ∧
       (∀ hs, e.requestHeaders = some hs → matchesHeaders hs r = true)) := by
  unfold matchesEndpoint
  by_cases hm : e.method = m
  · rw [if_neg (not_not_intro hm)]
    have hpredCase : ∀ res, (match e.matchPred with
        | some f => f r
        | none => Except.ok true) = res →
        ((res.bind fun predOk =>
          if predOk = false then Except.ok false
          else if matchesPath cfg e.path r = false then Except.ok false
          else if (match e.queryParams with
                   | some qp => !matchesQueryParams qp r.query
                   | none => false) = true then Except.ok false
          else if (match e.requestHeaders with
                   | some hs => !matchesHeaders hs r
                   | none => false) = true then Except.ok false
          else Except.ok true) = Except.ok true ↔
          (res = Except.ok true ∧
           matchesPath cfg e.path r = true ∧
           (∀ qp, e.queryParams = some qp → matchesQueryParams qp r.query = true) ∧
           (∀ hs, e.requestHeaders = some hs → matchesHeaders hs r = true))) := by
      intro res hres
      cases res with
      | error err => simp [Except.bind]
      | ok predOk =>
        cases predOk with
        | false => simp [Except.bind]
        | true =>
          simp only [Except.bind]
          by_cases hpath : matchesPath cfg e.path r = true
          · cases hqp : e.queryParams with
            | some qp =>
              by_cases hq : matchesQueryParams qp r.query = true
              · cases hhs : e.requestHeaders with
                | some hs =>
                  by_cases hh : matchesHeaders hs r = true
                  · simp [hpath, hqp, hq, hhs, hh]
                  · simp [hpath, hqp, hq, hhs, hh]
                | none => simp [hpath, hqp, hq, hhs]
              · simp [hpath, hqp, hq]
            | none =>
              cases hhs : e.requestHeaders with
              | some hs =>
                by_cases hh : matchesHeaders hs r = true
                · simp [hpath, hqp, hhs, hh]
                · simp [hpath, hqp, hhs, hh]
              | none => simp [hpath, hqp, hhs]
          · simp [hpath]
    cases hpred : e.matchPred with
    | none =>
      have h := hpredCase (Except.ok true) (by rw [hpred])
      rw [h]
      simp [hm, hpred]
    | some f =>
      have h := hpredCase (f r) (by rw [hpred])
      rw [h]
      simp [hm, hpred]
  · rw [if_pos hm]
    constructor
    · intro h; cases h
    · intro h
      exact absurd h.1 hm

theorem collectList_append (cfg : MockConfig) (m : String) (r : Request) :
    ∀ l1 l2 : List Endpoint,
      collectList cfg m r (l1 ++ l2) =
        (collectList cfg m r l1).bind fun c1 =>
          (collectList cfg m r l2).map fun c2 => c1 ++ c2 := by
  intro l1
  induction l1 with
  | nil =>
    intro l2
    cases h : collectList cfg m r l2 with
    | error err => simp [collectList, Except.bind, h, Except.map]
    | ok c => simp [collectList, Except.bind, h, Except.map]
  | cons e l1' ih =>
    intro l2
    simp only [List.cons_append, collectList]
    cases hm : matchesEndpoint cfg e m r with
    | error err => rfl
    | ok b =>
      simp only [Except.bind, List.append_eq]
      rw [ih l2]
      cases h1 : collectList cfg m r l1' with
      | error err => rfl
      | ok c1 =>
        cases h2 : collectList cfg m r l2 with
        | error err => rfl
        | ok c2 =>
          simp only [Except.bind, Except.map]
          by_cases hb : b = true
          · simp [hb]
          · simp [hb]

theorem splitSlash_no_slash (u : List Char) (h : '/' ∉ u) : splitSlash u = [u] := by
  induction u with
  | nil => rfl
  | cons c rest ih =>
    have hc : ¬ (c = '/') := by
      intro hh
      exact h (by rw [← hh]; exact List.mem_cons_self c rest)
    have hrest : '/' ∉ rest := fun hh => h (List.mem_cons_of_mem c hh)
    simp only [splitSlash, if_neg hc, ih hrest]

/-- findMatchingEndpoint_selectWinner re-expresses the sort-then-head
selection as the first-best scan, using stability of the sort. -/
theorem findMatchingEndpoint_selectWinner (cfg : MockConfig) (reg : Registry)
    (m : String) (r : Request) :
    findMatchingEndpoint cfg reg m r =
      (collectCandidates cfg m r reg).map fun cands =>
        (selectWinner candBetter cands).map Prod.fst := by
  unfold findMatchingEndpoint
  cases h : collectCandidates cfg m r reg with
  | error err => rfl
  | ok cands =>
    simp only [Except.map]
    have hhead := insertionSortB_head_selectWinner candLe candLe_total candLe_trans cands
    have hfun : (fun (a b : Endpoint × Nat) => !(candLe b a)) = candBetter := by
      funext a b
      rw [candBetter_eq_not_candLe]
    rw [hfun] at hhead
    cases hs : insertionSortB candLe cands with
    | nil =>
      rw [hs] at hhead
      simp only [List.head?] at hhead
      rw [← hhead]
      rfl
    | cons best rest =>
      rw [hs] at hhead
      simp only [List.head?] at hhead
      rw [← hhead]
      rfl

/-- cfg0 is the configuration `createConfig` produces for an empty user
configuration: no base path, zero global delay, the default global
headers, logging on, default priority 0. -/
def cfg0 : MockConfig :=
  { basePath := ""
    globalDelay := 0
    globalHeaders := [("Content-Type", "application/json")]
    logRequests := true
    defaultPriority := 0 }

/-- baseEndpoint is an endpoint with the given method and path and no
optional features set. -/
def baseEndpoint (m p : String) : Endpoint :=
  { path := p
    method := m
    response := ResponseSource.value (ResolvedValue.plain JsValue.vNull)
    status := none
    delay := none
    headers := none
    priority := none
    queryParams := none
    requestHeaders := none
    matchPred := none
    networkError := none }

/-- plainRequest is a request with the given pathname and no query,
headers or body. -/
def plainRequest (p : String) : Request :=
  { pathname := p, query := [], headers := [], bodyText := none }

/-- c1constrained is registered first and creates the key `GET:/:q/b`,
but never matches a query-less request (its query constraint fails). -/
def c1constrained : Endpoint :=
  { baseEndpoint "GET" "/:q/b" with queryParams := some [("x", "1")] }

/-- c1early is the first-registered endpoint among the tied matches. -/
def c1early : Endpoint := baseEndpoint "GET" "/a/:p"

/-- c1late is registered after `c1early` but lands in the earlier-created
map key `GET:/:q/b`. -/
def c1late : Endpoint := baseEndpoint "GET" "/:q/b"

/-- c1reg is the registry after registering, in order, `c1constrained`,
`c1early`, `c1late` under the default configuration. -/
def c1reg : Registry :=
  mockAdd cfg0 (mockAdd cfg0 (mockAdd cfg0 [] c1constrained) c1early) c1late

/-- c1req is a GET request for `/a/b`, matched by both `c1early` and
`c1late` with equal (default) priority and equal specificity 11. -/
def c1req : Request := plainRequest "/a/b"

/-- C1 (counterexample): with endpoints registered in the order
`c1constrained` (creates key `GET:/:q/b`, does not match), `c1early`
(`/a/:p`), `c1late` (`/:q/b`), a GET request for `/a/b` matches both
`c1early` and `c1late` with equal priority and equal specificity — yet
the winner is `c1late`, not the first-registered `c1early`, because
candidates are gathered in the registry map's key-insertion order, not
in global registration order. -/
theorem c1_registration_order_counterexample :
    matchesEndpoint cfg0 { c1early with priority := some 0 } "GET" c1req =
      Except.ok true ∧
    matchesEndpoint cfg0 { c1late with priority := some 0 } "GET" c1req =
      Except.ok true ∧
    ({ c1early with priority := some 0 } : Endpoint).priority =
      ({ c1late with priority := some 0 } : Endpoint).priority ∧
    calculateSpecificity c1early.path = calculateSpecificity c1late.path ∧
    (findMatchingEndpoint cfg0 c1reg "GET" c1req).map (Option.map Endpoint.path) =
      Except.ok (some c1late.path) ∧
    c1late.path ≠ c1early.path := by
  refine ⟨by rfl, by rfl, rfl, by rfl, by rfl, by decide⟩

/-- C1 (amended): the Ranker selects by priority descending, then path
specificity descending, and if still tied the first-encountered
candidate in the registry's iteration order (endpoint lists in
key-creation order, each list stably pre-sorted by priority), which is
the scan `selectWinner` that replaces the current best only on a strict
lexicographic improvement. -/
theorem c1_ranker_selection (cfg : MockConfig) (reg : Registry) (m : String)
    (r : Request) :
    (findMatchingEndpoint cfg reg m r =
      (collectCandidates cfg m r reg).map fun cands =>
        (selectWinner candBetter cands).map Prod.fst) ∧
    (∀ a b : Endpoint × Nat, candBetter a b = true ↔
      (b.1.priority.getD 0 < a.1.priority.getD 0 ∨
       (a.1.priority.getD 0 = b.1.priority.getD 0 ∧ b.2 < a.2))) := by
  refine ⟨findMatchingEndpoint_selectWinner cfg reg m r, ?_⟩
  intro a b
  unfold candBetter
  dsimp only
  split_ifs with h <;> simp only [decide_eq_true_eq] <;> omega

/-- C5: a definition with a network-error label fails every matched
invocation before any payload resolution (the result does not depend on
the response source at all), `timeout` and `connection_refused` carry
distinct descriptive transport-failure messages, `abort` carries the
name `AbortError`, and any other label falls back to the generic
transport failure. -/
theorem c5_network_error (cfg : MockConfig) (state : List (String × JsValue))
    (e : Endpoint) (r : Request) (lbl : String)
    (h : e.networkError = some lbl) :
    createMockResponse cfg state e r = Except.error (simulateNetworkError lbl) ∧
    simulateNetworkError "timeout" =
      { name := "TypeError", message := "Network request failed: timeout" } ∧
    simulateNetworkError "connection_refused" =
      { name := "TypeError", message := "Network request failed: connection refused" } ∧
    simulateNetworkError "timeout" ≠ simulateNetworkError "connection_refused" ∧
    (simulateNetworkError "abort").name = "AbortError" ∧
    (∀ other, other ≠ "timeout" → other ≠ "connection_refused" → other ≠ "abort" →
      simulateNetworkError other =
        { name := "TypeError", message := "Network request failed" }) := by
  refine ⟨?_, rfl, rfl, by decide, rfl, ?_⟩
  · unfold createMockResponse
    rw [h]
  · intro other h1 h2 h3
    unfold simulateNetworkError
    rw [if_neg h1, if_neg h2, if_neg h3]

/-- c5e declares a timeout network error together with a handler that
would succeed; the failure wins and the handler result is never used. -/
def c5e : Endpoint :=
  { baseEndpoint "GET" "/n" with
      networkError := some "timeout"
      response := ResponseSource.handler
        (fun _ => Except.ok (ResolvedValue.plain (JsValue.vStr "unreachable"))) }

theorem c5_network_error_witness :
    createMockResponse cfg0 [] c5e (plainRequest "/n") =
      Except.error { name := "TypeError", message := "Network request failed: timeout" } :=
  (c5_network_error cfg0 [] c5e (plainRequest "/n") "timeout" rfl).1

/-- C7: clearing empties the endpoint map and the shared state in the
same call, the state read afterwards is empty, and every subsequent
request decision is a pass-through to the real transport (whether the
mocker is enabled or not). -/
theorem c7_clear_resets (s : MockerState) (m : String) (r : Request) :
    (clear s).endpoints = [] ∧ getState (clear s) = [] ∧
    interceptDecision (clear s) m r = FetchOutcome.passthrough := by
  refine ⟨rfl, rfl, ?_⟩
  unfold interceptDecision clear
  by_cases he : s.isEnabled = false
  · simp [he]
  · rw [if_neg he]
    rfl

/-- C8: the body delivered to a dynamic handler's context is absent for
an empty (or unreadable) body, the decoded value when the non-empty text
parses as JSON, and the raw text otherwise; `parseRequestBody` is a
total function (it cannot fail), and the context's `body` field is
exactly its result. -/
theorem c8_body_parsing :
    parseRequestBody none = BodyVal.undef ∧
    parseRequestBody (some "") = BodyVal.undef ∧
    (∀ t v, t ≠ "" → jsonParse t = some v →
      parseRequestBody (some t) = BodyVal.json v) ∧
    (∀ t, t ≠ "" → jsonParse t = none →
      parseRequestBody (some t) = BodyVal.text t) ∧
    (∀ cfg state pattern r,
      (buildRequestContext cfg state pattern r).body = parseRequestBody r.bodyText) := by
  refine ⟨rfl, rfl, ?_, ?_, ?_⟩
  · intro t v ht hj
    simp only [parseRequestBody]
    rw [if_neg ht, hj]
  · intro t ht hj
    simp only [parseRequestBody]
    rw [if_neg ht, hj]
  · intro cfg state pattern r
    rfl

theorem c8_body_parsing_witness :
    parseRequestBody (some "[1, 2]") =
      BodyVal.json (JsValue.vArr [JsValue.vNum 1, JsValue.vNum 2]) ∧
    parseRequestBody (some "not json") = BodyVal.text "not json" :=
  ⟨c8_body_parsing.2.2.1 "[1, 2]" (JsValue.vArr [JsValue.vNum 1, JsValue.vNum 2])
      (by decide) (by rfl),
   c8_body_parsing.2.2.2.1 "not json" (by decide) (by rfl)⟩

/-- C10: query-constraint matching reads the FIRST occurrence of a
repeated key (`URLSearchParams.get`), while the context's `queryParams`
record keeps the LAST occurrence (assignment in order of appearance);
concretely, for `?a=1&a=2` a constraint `a=2` fails to match although a
matched handler would read `a = "2"` from its context. -/
theorem c10_query_first_vs_last :
    (∀ (q : List (String × String)) k v,
      matchesQueryParams [(k, v)] q = true ↔ searchParamsGet q k = some v) ∧
    (∀ (q : List (String × String)) k,
      searchParamsGet q k = (q.find? (fun p => p.1 = k)).map (fun p => p.2)) ∧
    (∀ (q : List (String × String)) k,
      recordGet (extractQueryParams q) k =
        (q.reverse.find? (fun p => p.1 = k)).map (fun p => p.2)) ∧
    (matchesQueryParams [("a", "2")] [("a", "1"), ("a", "2")] = false ∧
     recordGet (extractQueryParams [("a", "1"), ("a", "2")]) "a" = some "2" ∧
     (buildRequestContext cfg0 [] "/x"
        { pathname := "/x", query := [("a", "1"), ("a", "2")],
          headers := [], bodyText := none }).queryParams = [("a", "2")]) := by
  refine ⟨?_, ?_, ?_, by rfl, by rfl, by rfl⟩
  · intro q k v
    unfold matchesQueryParams
    simp [List.all_cons]
  · intro q k
    rfl
  · intro q k
    unfold extractQueryParams
    rw [recordGet_overlay]
    cases h : (q.reverse.find? (fun p => p.1 = k)) with
    | none => simp [recordGet, h, List.find?]
    | some p => simp [recordGet, h]

/-- C2: a definition is applicable iff all present checks pass — method
equality, custom predicate (reject on a false return), path match
against the base-stripped request path, query-constraint equality via
the first-occurrence lookup, and case-insensitive header-constraint
equality — and the evaluation order is observable: a method mismatch
answers `false` without consulting the predicate, and a throwing
predicate aborts matching before the path/query/header checks run. -/
theorem c2_matcher_checks (cfg : MockConfig) (e : Endpoint) (m : String)
    (r : Request) :
    (matchesEndpoint cfg e m r = Except.ok true ↔
      (e.method = m ∧
       (∀ f, e.matchPred = some f → f r = Except.ok true) ∧
       matchesPath cfg e.path r = true ∧
       (∀ qp, e.queryParams = some qp → matchesQueryParams qp r.query = true) ∧
       (∀ hs, e.requestHeaders = some hs → matchesHeaders hs r = true))) ∧
    (e.method ≠ m → matchesEndpoint cfg e m r = Except.ok false) ∧
    (∀ f err, e.method = m → e.matchPred = some f → f r = Except.error err →
      matchesEndpoint cfg e m r = Except.error err) :=
  ⟨matchesEndpoint_ok_true_iff cfg e m r,
   fun hm => matchesEndpoint_method_ne cfg e m r hm,
   fun f err hm hf herr => matchesEndpoint_pred_error cfg e m r f err hm hf herr⟩

/-- c2endpoint carries every kind of constraint at once. -/
def c2endpoint : Endpoint :=
  { baseEndpoint "GET" "/w/:id" with
      queryParams := some [("k", "v")]
      requestHeaders := some [("X-Tok", "t")]
      matchPred := some (fun _ => Except.ok true) }

/-- c2request satisfies every constraint of `c2endpoint` (note the
header key case differs from the declared constraint). -/
def c2request : Request :=
  { pathname := "/w/9", query := [("k", "v")], headers := [("X-Tok", "t")],
    bodyText := none }

/-- c2throwing matches on method but its predicate throws. -/
def c2throwing : Endpoint :=
  { baseEndpoint "GET" "/w/:id" with
      matchPred := some (fun _ => Except.error { name := "Error", message := "boom" }) }

theorem c2_matcher_checks_witness :
    matchesEndpoint cfg0 c2endpoint "GET" c2request = Except.ok true ∧
    matchesEndpoint cfg0 c2endpoint "POST" c2request = Except.ok false ∧
    matchesEndpoint cfg0 c2throwing "GET" c2request =
      Except.error { name := "Error", message := "boom" } := by
  refine ⟨?_, ?_, ?_⟩
  · exact (c2_matcher_checks cfg0 c2endpoint "GET" c2request).1.mpr
      ⟨rfl,
       by
         intro f hf
         have hf2 : some (fun _ => Except.ok true) = some f := hf
         cases hf2
         rfl,
       by rfl,
       by
         intro qp hqp
         have h2 : some [("k", "v")] = some qp := hqp
         cases h2
         rfl,
       by
         intro hs hhs
         have h2 : some [("X-Tok", "t")] = some hs := hhs
         cases h2
         rfl⟩
  · exact (c2_matcher_checks cfg0 c2endpoint "POST" c2request).2.1 (by decide)
  · exact (c2_matcher_checks cfg0 c2throwing "GET" c2request).2.2
      (fun _ => Except.error { name := "Error", message := "boom" })
      { name := "Error", message := "boom" } rfl rfl rfl

/-- C3: a plain object is classified as a response descriptor iff it is
a non-null object with a `data` key and at least one of a `status` or
`headers` key; an object with only a `data` key is not a descriptor, and
every non-descriptor value is treated as an ordinary payload (the whole
value becomes the body, with the definition's status defaulted to 200
and no descriptor header group). -/
theorem c3_descriptor_classification :
    (∀ v : JsValue, isMockResponse v = true ↔
      ∃ fields, v = JsValue.vObj fields ∧ recordHas fields "data" = true ∧
        (recordHas fields "status" = true ∨ recordHas fields "headers" = true)) ∧
    (∀ fields, recordHas fields "status" = false →
      recordHas fields "headers" = false →
      isMockResponse (JsValue.vObj fields) = false) ∧
    (∀ cfg e v, isMockResponse v = false →
      normalizeResponse cfg e v =
        { body := serializeBody v
          status := e.status.getD 200
          headers := mergeHeaders cfg [e.headers] }) := by
  refine ⟨?_, ?_, ?_⟩
  · intro v
    cases v with
    | vObj fields => simp [isMockResponse]
    | vNull => simp [isMockResponse]
    | vUndef => simp [isMockResponse]
    | vBool b => simp [isMockResponse]
    | vNum n => simp [isMockResponse]
    | vStr s => simp [isMockResponse]
    | vArr elems => simp [isMockResponse]
  · intro fields h1 h2
    simp [isMockResponse, h1, h2]
  · intro cfg e v h
    unfold normalizeResponse
    rw [if_neg (by simp [h])]

theorem c3_descriptor_classification_witness :
    isMockResponse
      (JsValue.vObj [("data", JsValue.vNum 1), ("status", JsValue.vNum 201)]) = true ∧
    isMockResponse (JsValue.vObj [("data", JsValue.vNum 1)]) = false ∧
    normalizeResponse cfg0 (baseEndpoint "GET" "/c3")
        (JsValue.vObj [("data", JsValue.vNum 1)]) =
      { body := serializeBody (JsValue.vObj [("data", JsValue.vNum 1)])
        status := 200
        headers := mergeHeaders cfg0 [none] } := by
  refine ⟨?_, ?_, ?_⟩
  · exact (c3_descriptor_classification.1 _).mpr
      ⟨[("data", JsValue.vNum 1), ("status", JsValue.vNum 201)], rfl, by rfl,
       Or.inl (by rfl)⟩
  · exact c3_descriptor_classification.2.1 [("data", JsValue.vNum 1)] (by rfl) (by rfl)
  · exact c3_descriptor_classification.2.2 cfg0 (baseEndpoint "GET" "/c3")
      (JsValue.vObj [("data", JsValue.vNum 1)]) (by rfl)

theorem mergeHeaders_lookup (cfg : MockConfig)
    (g1 g2 : Option (List (String × String))) (k : String) :
    recordGet (mergeHeaders cfg [g1, g2]) k =
      ((recordGet (g2.getD []).reverse k).or
        ((recordGet (g1.getD []).reverse k).or (recordGet cfg.globalHeaders k))) := by
  unfold mergeHeaders
  cases g1 with
  | none =>
    cases g2 with
    | none => simp [recordGet, List.find?]
    | some f2 =>
      simp only [List.foldl_cons, List.foldl_nil, Option.getD]
      rw [recordGet_overlay]
      simp [recordGet, List.find?]
  | some f1 =>
    cases g2 with
    | none =>
      simp only [List.foldl_cons, List.foldl_nil, Option.getD]
      rw [recordGet_overlay]
      simp [recordGet, List.find?]
    | some f2 =>
      simp only [List.foldl_cons, List.foldl_nil, Option.getD]
      rw [recordGet_overlay, recordGet_overlay]

theorem mergeHeaders_lookup_single (cfg : MockConfig)
    (g1 : Option (List (String × String))) (k : String) :
    recordGet (mergeHeaders cfg [g1]) k =
      ((recordGet (g1.getD []).reverse k).or (recordGet cfg.globalHeaders k)) := by
  unfold mergeHeaders
  cases g1 with
  | none => simp [recordGet, List.find?]
  | some f1 =>
    simp only [List.foldl_cons, List.foldl_nil, Option.getD]
    rw [recordGet_overlay]

/-- C4: for a built (non-native) mock response, the status is
`descriptor.status`, else the definition's status, else 200; and every
header key resolves to the descriptor's binding if present, else the
definition's binding, else the configuration's global binding — a
top-level key-by-key overlay with later groups winning. A
non-descriptor value gets the definition's status (default 200) and the
overlay without a descriptor group. -/
theorem c4_status_and_header_merge (cfg : MockConfig) (e : Endpoint)
    (fields : List (String × JsValue)) (k : String) :
    (isMockResponse (JsValue.vObj fields) = true →
      ((normalizeResponse cfg e (JsValue.vObj fields)).status =
        (descStatus fields).getD (e.status.getD 200) ∧
       recordGet (normalizeResponse cfg e (JsValue.vObj fields)).headers k =
        ((recordGet ((descHeaders fields).getD []).reverse k).or
          ((recordGet (e.headers.getD []).reverse k).or
            (recordGet cfg.globalHeaders k))))) ∧
    (∀ v, isMockResponse v = false →
      ((normalizeResponse cfg e v).status = e.status.getD 200 ∧
       recordGet (normalizeResponse cfg e v).headers k =
        ((recordGet (e.headers.getD []).reverse k).or
          (recordGet cfg.globalHeaders k)))) := by
  constructor
  · intro h
    unfold normalizeResponse
    rw [if_pos h]
    exact ⟨rfl, mergeHeaders_lookup cfg e.headers (descHeaders fields) k⟩
  · intro v h
    unfold normalizeResponse
    rw [if_neg (by simp [h])]
    exact ⟨rfl, mergeHeaders_lookup_single cfg e.headers k⟩

/-- c4e carries definition-level headers that collide with both the
global headers and the descriptor headers on `Content-Type`. -/
def c4e : Endpoint :=
  { baseEndpoint "GET" "/c4" with
      headers := some [("X-E", "e"), ("Content-Type", "text/css")] }

/-- c4fields is a response descriptor overriding status and one header. -/
def c4fields : List (String × JsValue) :=
  [("data", JsValue.vNum 1), ("status", JsValue.vNum 201),
   ("headers", JsValue.vObj [("Content-Type", JsValue.vStr "text/html")])]

theorem c4_status_and_header_merge_witness :
    (normalizeResponse cfg0 c4e (JsValue.vObj c4fields)).status = 201 ∧
    recordGet (normalizeResponse cfg0 c4e (JsValue.vObj c4fields)).headers
      "Content-Type" = some "text/html" ∧
    recordGet (normalizeResponse cfg0 c4e (JsValue.vObj c4fields)).headers
      "X-E" = some "e" := by
  have h1 := (c4_status_and_header_merge cfg0 c4e c4fields "Content-Type").1 (by rfl)
  have h2 := (c4_status_and_header_merge cfg0 c4e c4fields "X-E").1 (by rfl)
  refine ⟨?_, ?_, ?_⟩
  · rw [h1.1]
    rfl
  · rw [h1.2]
    rfl
  · rw [h2.2]
    rfl

/-- C9: a custom predicate that throws during matching aborts the whole
candidate collection: the matched-endpoint search reports the thrown
error (regardless of any later candidates in the list or any later
registry keys), and the interceptor fails the call with that error
rather than treating the definition as non-matching or falling through
to the real transport. -/
theorem c9_predicate_throw_propagates (cfg : MockConfig)
    (gstate : List (String × JsValue)) (m : String) (r : Request) (key : String)
    (pre post : List Endpoint) (restReg : Registry) (e : Endpoint)
    (f : Request → Except ThrownError Bool) (err : ThrownError)
    (c : List (Endpoint × Nat))
    (hpre : collectList cfg m r pre = Except.ok c)
    (hm : e.method = m) (hf : e.matchPred = some f)
    (herr : f r = Except.error err) :
    findMatchingEndpoint cfg ((key, pre ++ e :: post) :: restReg) m r =
      Except.error err ∧
    interceptDecision
      { endpoints := (key, pre ++ e :: post) :: restReg, config := cfg,
        isEnabled := true, state := gstate } m r = FetchOutcome.errored err := by
  have hmatch : matchesEndpoint cfg e m r = Except.error err :=
    matchesEndpoint_pred_error cfg e m r f err hm hf herr
  have hcl : collectList cfg m r (pre ++ e :: post) = Except.error err := by
    rw [collectList_append, hpre]
    simp only [Except.bind]
    simp [collectList, hmatch, Except.bind, Except.map]
  have hfind : findMatchingEndpoint cfg ((key, pre ++ e :: post) :: restReg) m r =
      Except.error err := by
    unfold findMatchingEndpoint
    simp only [collectCandidates]
    rw [hcl]
    rfl
  refine ⟨hfind, ?_⟩
  unfold interceptDecision
  rw [if_neg (by simp)]
  simp only [hfind]

/-- c9throwing is registered before another endpoint under the same key;
its predicate throws on every request. -/
def c9throwing : Endpoint :=
  { baseEndpoint "GET" "/t" with
      matchPred := some
        (fun _ => Except.error { name := "Error", message := "predicate exploded" }) }

/-- c9other would match the request if it were ever considered. -/
def c9other : Endpoint := baseEndpoint "GET" "/t"

theorem c9_predicate_throw_witness :
    interceptDecision
      { endpoints := [("GET:/t", [c9throwing, c9other])], config := cfg0,
        isEnabled := true, state := [] } "GET" (plainRequest "/t") =
      FetchOutcome.errored { name := "Error", message := "predicate exploded" } :=
  (c9_predicate_throw_propagates cfg0 [] "GET" (plainRequest "/t") "GET:/t" []
    [c9other] [] c9throwing
    (fun _ => Except.error { name := "Error", message := "predicate exploded" })
    { name := "Error", message := "predicate exploded" } [] rfl rfl rfl rfl).2

theorem getPathWithoutBase_cfg0 (p : String) :
    getPathWithoutBase cfg0 p = normalizePath p.data := by
  unfold getPathWithoutBase
  dsimp only
  rw [if_neg]
  intro hc
  exact hc.1 rfl

theorem splitSlash_users_param (u : List Char) (h : '/' ∉ u) :
    splitSlash ('/' :: 'u' :: 's' :: 'e' :: 'r' :: 's' :: '/' :: u) =
      [[], ['u', 's', 'e', 'r', 's'], u] := by
  have h1 : splitSlash u = [u] := splitSlash_no_slash u h
  simp [splitSlash, h1]

theorem trim_users_param (u : List Char) (hne : u ≠ []) (h : '/' ∉ u) :
    trimTrailingSlash ('/' :: 'u' :: 's' :: 'e' :: 'r' :: 's' :: '/' :: u) =
      '/' :: 'u' :: 's' :: 'e' :: 'r' :: 's' :: '/' :: u := by
  unfold trimTrailingSlash
  rw [if_neg]
  intro hc
  have hl : ('/' :: 'u' :: 's' :: 'e' :: 'r' :: 's' :: '/' :: u).getLast? =
      u.getLast? := by
    show ((['/', 'u', 's', 'e', 'r', 's', '/'] : List Char) ++ u).getLast? =
      u.getLast?
    rw [List.getLast?_append]
    cases hu : u.getLast? with
    | none =>
      exfalso
      exact hne (List.getLast?_eq_none_iff.mp hu)
    | some c => rfl
  rw [hl] at hc
  exact h (List.mem_of_mem_getLast? (Option.mem_def.mpr hc.2))

theorem matchesPath_users_param (u : List Char) (hne : u ≠ []) (hslash : '/' ∉ u) :
    matchesPath cfg0 "/users/:id"
      (plainRequest (String.mk ('/' :: 'u' :: 's' :: 'e' :: 'r' :: 's' :: '/' :: u))) =
      true := by
  unfold matchesPath
  dsimp only [plainRequest]
  rw [getPathWithoutBase_cfg0]
  have e0 : splitSlash (trimTrailingSlash (normalizePath (String.data "/users/:id"))) =
      [[], ['u', 's', 'e', 'r', 's'], [':', 'i', 'd']] := rfl
  have e3 : normalizePath (String.data (String.mk
      ('/' :: 'u' :: 's' :: 'e' :: 'r' :: 's' :: '/' :: u))) =
      '/' :: 'u' :: 's' :: 'e' :: 'r' :: 's' :: '/' :: u := rfl
  rw [e0, e3, trim_users_param u hne hslash, splitSlash_users_param u hslash]
  have hE : u.isEmpty = false := List.isEmpty_eq_false.mpr hne
  simp [segMatches, segIsParam, hE]
  exact Or.inl (by decide)

theorem extractParams_users_param (u : List Char) (hne : u ≠ []) (hslash : '/' ∉ u) :
    extractParams cfg0 "/users/:id"
      (plainRequest (String.mk ('/' :: 'u' :: 's' :: 'e' :: 'r' :: 's' :: '/' :: u))) =
      [("id", String.mk u)] := by
  unfold extractParams
  dsimp only [plainRequest]
  rw [getPathWithoutBase_cfg0]
  have e3 : normalizePath (String.data (String.mk
      ('/' :: 'u' :: 's' :: 'e' :: 'r' :: 's' :: '/' :: u))) =
      '/' :: 'u' :: 's' :: 'e' :: 'r' :: 's' :: '/' :: u := rfl
  rw [e3, trim_users_param u hne hslash, splitSlash_users_param u hslash]
  have hE : u.isEmpty = false := List.isEmpty_eq_false.mpr hne
  simp [List.filter, hE, extractParamsGo, recordSet, hne]

/-- C6: the path matcher requires an exact full-string match after
normalization (a successful match forces equal segment counts, so no
prefix or partial matches), a `:name` token matches exactly one
non-empty, slash-free segment and binds positionally to it (shown in
general for the pattern `/users/:id` against `/users/<seg>`), and
concretely `/users/:userId/posts/:postId` against `/users/1/posts/5`
yields `userId = "1"`, `postId = "5"`, while prefix-shaped requests are
rejected. -/
theorem c6_path_match_and_params :
    (∀ (cfg : MockConfig) (pattern : String) (r : Request),
      matchesPath cfg pattern r = true →
      (splitSlash (trimTrailingSlash (normalizePath pattern.data))).length =
        (splitSlash (trimTrailingSlash (getPathWithoutBase cfg r.pathname))).length) ∧
    (∀ u : List Char, u ≠ [] → '/' ∉ u →
      matchesPath cfg0 "/users/:id"
        (plainRequest (String.mk ('/' :: 'u' :: 's' :: 'e' :: 'r' :: 's' :: '/' :: u))) =
        true ∧
      extractParams cfg0 "/users/:id"
        (plainRequest (String.mk ('/' :: 'u' :: 's' :: 'e' :: 'r' :: 's' :: '/' :: u))) =
        [("id", String.mk u)]) ∧
    (matchesPath cfg0 "/users/:userId/posts/:postId"
        (plainRequest "/users/1/posts/5") = true ∧
     extractParams cfg0 "/users/:userId/posts/:postId"
        (plainRequest "/users/1/posts/5") = [("userId", "1"), ("postId", "5")]) ∧
    (matchesPath cfg0 "/users" (plainRequest "/users/1") = false ∧
     matchesPath cfg0 "/users/:id" (plainRequest "/users/1/posts") = false ∧
     matchesPath cfg0 "/users/:id" (plainRequest "/users") = false) := by
  refine ⟨?_, ?_, ⟨by rfl, by rfl⟩, ⟨by rfl, by rfl, by rfl⟩⟩
  · intro cfg pattern r h
    unfold matchesPath at h
    simp only [Bool.and_eq_true, beq_iff_eq] at h
    exact h.1
  · intro u hne hslash
    exact ⟨matchesPath_users_param u hne hslash,
           extractParams_users_param u hne hslash⟩

theorem c6_path_match_and_params_witness :
    matchesPath cfg0 "/users/:id" (plainRequest "/users/me") = true ∧
    extractParams cfg0 "/users/:id" (plainRequest "/users/me") = [("id", "me")] := by
  have h := c6_path_match_and_params.2.1 ['m', 'e'] (by decide) (by decide)
  exact h

end ApiMocker
